import Mathlib

/-!
Verification of the `denosaurs/urlpattern` polyfill wrapper layer
(`webidl.js` and the `URLPattern` class) against its specification.

The repository splits into a thin JavaScript wrapper (in scope of the
source tree) and a wasm pattern compiler plus the host `RegExp` engine
(outside the source tree).  The wrapper is embedded faithfully below;
the wasm functions `urlpattern_parse` / `urlpattern_process_match_input`
and the host regex capability are kept abstract (as function parameters)
or, where a concrete result is required, modelled from the spec with a
doc comment saying so.
-/

namespace UrlPattern

/-! ## JS strings as UTF-16 code-unit sequences

JavaScript strings are sequences of 16-bit code units; `charCodeAt`
reads one unit.  We model such a string as `List Nat`, each element a
code unit (`< 0x10000` wherever a theorem needs it). -/

/-- `true` for a code unit in the high-surrogate range D800..DBFF. -/
def isHighSurrogate (c : Nat) : Bool := 0xd800 ≤ c && c ≤ 0xdbff

/-- `true` for a code unit in the low-surrogate range DC00..DFFF. -/
def isLowSurrogate (c : Nat) : Bool := 0xdc00 ≤ c && c ≤ 0xdfff

/-- `String.fromCodePoint` for a single code point, rendered as UTF-16
code units: a scalar below 0x10000 is one unit, a supplementary code
point becomes a surrogate pair. -/
def fromCodePoint (cp : Nat) : List Nat :=
  if cp < 0x10000 then [cp]
  else [0xd800 + (cp - 0x10000) / 0x400, 0xdc00 + (cp - 0x10000) % 0x400]

/-- Embedding of the loop of `converters.USVString` (webidl.js lines
137-162).  The converter walks the code units of the input left to
right: a non-surrogate unit is passed through, a lone low surrogate or
an unpaired high surrogate becomes U+FFFD, and a high surrogate
followed by a low surrogate is recombined into the supplementary code
point `(2 << 15) + (2 << 9) * (c & 0x3ff) + (d & 0x3ff)` (consuming
both units). -/
def usvConvert : List Nat → List Nat
  | [] => []
  | c :: rest =>
    if c < 0xd800 || 0xdfff < c then
      fromCodePoint c ++ usvConvert rest
    else if 0xdc00 ≤ c && c ≤ 0xdfff then
      fromCodePoint 0xfffd ++ usvConvert rest
    else
      match rest with
      | [] => fromCodePoint 0xfffd
      | d :: rest2 =>
        if 0xdc00 ≤ d && d ≤ 0xdfff then
          fromCodePoint ((2 <<< 15) + (2 <<< 9) * (c &&& 0x3ff) + (d &&& 0x3ff))
            ++ usvConvert rest2
        else
          fromCodePoint 0xfffd ++ usvConvert (d :: rest2)

/-- A UTF-16 code-unit sequence is well formed when every high
surrogate is immediately followed by a low surrogate and no low
surrogate appears unpaired. -/
def wellFormed : List Nat → Bool
  | [] => true
  | c :: rest =>
    if isHighSurrogate c then
      match rest with
      | [] => false
      | d :: rest2 => isLowSurrogate d && wellFormed rest2
    else
      !isLowSurrogate c && wellFormed rest

/-- The WHATWG "convert to scalar-value string" fixup, stated directly:
keep non-surrogates and well-formed surrogate pairs, replace every
unpaired surrogate unit with U+FFFD.  This is the specification-side
description that `usvConvert` is compared against. -/
def surrogateFixup : List Nat → List Nat
  | [] => []
  | c :: rest =>
    if isHighSurrogate c then
      match rest with
      | [] => [0xfffd]
      | d :: rest2 =>
        if isLowSurrogate d then c :: d :: surrogateFixup rest2
        else 0xfffd :: surrogateFixup (d :: rest2)
    else if isLowSurrogate c then 0xfffd :: surrogateFixup rest
    else c :: surrogateFixup rest

theorem fromCodePoint_pair (c d : Nat) (hc1 : 0xd800 ≤ c) (hc2 : c ≤ 0xdbff)
    (hd1 : 0xdc00 ≤ d) (hd2 : d ≤ 0xdfff) :
    fromCodePoint ((2 <<< 15) + (2 <<< 9) * (c &&& 0x3ff) + (d &&& 0x3ff)) = [c, d] := by
  have hca : c &&& 0x3ff = c % 0x400 := by
    simpa using Nat.and_pow_two_sub_one_eq_mod c 10
  have hda : d &&& 0x3ff = d % 0x400 := by
    simpa using Nat.and_pow_two_sub_one_eq_mod d 10
  have h2a : (2 <<< 15 : Nat) = 65536 := by decide
  have h2b : (2 <<< 9 : Nat) = 1024 := by decide
  rw [hca, hda, h2a, h2b, fromCodePoint]
  have hclt : c % 1024 < 1024 := Nat.mod_lt _ (by omega)
  have hdlt : d % 1024 < 1024 := Nat.mod_lt _ (by omega)
  rw [if_neg (by omega)]
  have e1 : 0xd800 + (65536 + 1024 * (c % 1024) + d % 1024 - 65536) / 1024 = c := by
    omega
  have e2 : 0xdc00 + (65536 + 1024 * (c % 1024) + d % 1024 - 65536) % 1024 = d := by
    omega
  rw [e1, e2]

theorem usvConvert_eq_surrogateFixup :
    ∀ s : List Nat, (∀ c ∈ s, c < 0x10000) → usvConvert s = surrogateFixup s
  | [], _ => rfl
  | c :: rest, h => by
    have hc : c < 0x10000 := h c (List.mem_cons_self ..)
    have hrest : ∀ x ∈ rest, x < 0x10000 := fun x hx => h x (List.mem_cons_of_mem _ hx)
    rw [usvConvert.eq_def, surrogateFixup.eq_def]
    dsimp only
    by_cases h1 : c < 0xd800 ∨ 0xdfff < c
    · rw [if_pos (by simpa [decide_eq_true_iff] using h1)]
      rw [if_neg (by simp [isHighSurrogate]; omega), if_neg (by simp [isLowSurrogate]; omega)]
      rw [fromCodePoint, if_pos hc]
      simp [usvConvert_eq_surrogateFixup rest hrest]
    · push_neg at h1
      obtain ⟨hlo, hhi⟩ := h1
      rw [if_neg (by simp; omega)]
      by_cases h2 : 0xdc00 ≤ c
      · rw [if_pos (by simp; omega), if_neg (by simp [isHighSurrogate]; omega),
          if_pos (by simp [isLowSurrogate]; omega)]
        simp [fromCodePoint, usvConvert_eq_surrogateFixup rest hrest]
      · push_neg at h2
        rw [if_neg (by simp; omega), if_pos (by simp [isHighSurrogate]; omega)]
        match rest with
        | [] => rfl
        | d :: rest2 =>
          dsimp only
          have hrest2 : ∀ x ∈ rest2, x < 0x10000 :=
            fun x hx => hrest x (List.mem_cons_of_mem _ hx)
          by_cases h3 : 0xdc00 ≤ d ∧ d ≤ 0xdfff
          · rw [if_pos (by simp [h3.1, h3.2]), if_pos (by simp [isLowSurrogate, h3.1, h3.2])]
            rw [fromCodePoint_pair c d (by omega) (by omega) h3.1 h3.2]
            simp [usvConvert_eq_surrogateFixup rest2 hrest2]
          · rw [if_neg (by simpa [decide_eq_true_iff] using h3),
              if_neg (by simp [isLowSurrogate]; omega)]
            simp [fromCodePoint, usvConvert_eq_surrogateFixup (d :: rest2) hrest]

theorem wellFormed_surrogateFixup :
    ∀ s : List Nat, wellFormed (surrogateFixup s) = true
  | [] => rfl
  | c :: rest => by
    rw [surrogateFixup.eq_def]
    dsimp only
    by_cases h1 : isHighSurrogate c
    · rw [if_pos h1]
      match rest with
      | [] => rfl
      | d :: rest2 =>
        dsimp only
        by_cases h2 : isLowSurrogate d
        · rw [if_pos h2, wellFormed.eq_def]
          dsimp only
          rw [if_pos h1]
          simp [h2, wellFormed_surrogateFixup rest2]
        · rw [if_neg h2, wellFormed.eq_def]
          dsimp only
          rw [if_neg (by decide)]
          simp [isLowSurrogate, wellFormed_surrogateFixup (d :: rest2)]
    · rw [if_neg h1]
      by_cases h2 : isLowSurrogate c
      · rw [if_pos h2, wellFormed.eq_def]
        dsimp only
        rw [if_neg (by decide)]
        simp [isLowSurrogate, wellFormed_surrogateFixup rest]
      · rw [if_neg h2, wellFormed.eq_def]
        dsimp only
        rw [if_neg h1]
        simp [h2, wellFormed_surrogateFixup rest]

theorem surrogateFixup_of_wellFormed :
    ∀ s : List Nat, wellFormed s = true → surrogateFixup s = s
  | [], _ => rfl
  | c :: rest, h => by
    rw [wellFormed.eq_def] at h
    dsimp only at h
    rw [surrogateFixup.eq_def]
    dsimp only
    by_cases h1 : isHighSurrogate c
    · rw [if_pos h1] at h
      rw [if_pos h1]
      match rest with
      | [] => exact absurd h (by decide)
      | d :: rest2 =>
        dsimp only at h ⊢
        have h2 : isLowSurrogate d = true ∧ wellFormed rest2 = true := by
          simpa using h
        rw [if_pos h2.1, surrogateFixup_of_wellFormed rest2 h2.2]
    · rw [if_neg h1] at h
      have h2 : isLowSurrogate c = false ∧ wellFormed rest = true := by
        simpa using h
      rw [if_neg h1, if_neg (by simp [h2.1]), surrogateFixup_of_wellFormed rest h2.2]

/-! ## JS values and the webidl converters -/

/-- A model of the ECMAScript values the wrapper's converters
dispatch on.  An object is a list of string-keyed properties (first
binding wins, as in property lookup on our plain-object model). -/
inductive JSVal where
  | undefined
  | null
  | boolean (b : Bool)
  | number (n : Int)
  | str (s : String)
  | symbol (description : String)
  | obj (fields : List (String × JSVal))

/-- The ECMAScript `typeof` operator on our value model; note the
historical quirk `typeof null == "object"` that the URLPatternInput
converter inherits. -/
def jsTypeOf : JSVal → String
  | .undefined => "undefined"
  | .null => "object"
  | .boolean _ => "boolean"
  | .number _ => "number"
  | .str _ => "string"
  | .symbol _ => "symbol"
  | .obj _ => "object"

/-- The ECMAScript `String(V)` coercion for the values DOMString can
receive (a symbol is rejected by DOMString before this is applied, so
its value here is immaterial; a plain object stringifies through
`Object.prototype.toString`). -/
def jsToString : JSVal → String
  | .undefined => "undefined"
  | .null => "null"
  | .boolean b => if b then "true" else "false"
  | .number n => toString n
  | .str s => s
  | .symbol d => d
  | .obj _ => "[object Object]"

/-- Embedding of `converters.DOMString` (webidl.js lines 121-135):
null with the treat-null-as-empty-string flag becomes "", a symbol is
rejected, everything else is coerced with `String(V)`.  No call site
in this repository sets the flag. -/
def convertDOMString (treatNullAsEmptyString : Bool) (v : JSVal) : Except String String :=
  match treatNullAsEmptyString, v with
  | true, .null => .ok ""
  | _, .symbol _ => .error "is a symbol, which cannot be converted to a string"
  | _, v => .ok (jsToString v)

/-- Embedding of `converters.USVString` (webidl.js lines 137-162) at
the level of Lean strings: DOMString followed by the surrogate fixup
loop.  Lean's `String` holds Unicode scalar values only, on which the
code-unit loop is the identity (`usvConvert_eq_surrogateFixup`
together with `surrogateFixup_of_wellFormed` prove this at the
code-unit level), so over this string model the loop contributes
nothing. -/
def convertUSVString (v : JSVal) : Except String String :=
  convertDOMString false v

/-- The `URLPatternInit` dictionary: the nine optional USVString
members of the webidl dictionary (mod.ts lines 196-206). -/
structure URLPatternInit where
  protocol : Option String := none
  username : Option String := none
  password : Option String := none
  hostname : Option String := none
  port : Option String := none
  pathname : Option String := none
  search : Option String := none
  hash : Option String := none
  baseURL : Option String := none
deriving DecidableEq, Repr

/-- JS property read on the plain-object model: first binding wins,
a missing property reads as undefined. -/
def getProp (fields : List (String × JSVal)) (k : String) : JSVal :=
  match fields.lookup k with
  | some v => v
  | none => .undefined

/-- One member step of the dictionary converter (webidl.js lines
89-113): a present (non-undefined) member is converted with USVString,
an absent member is skipped (no member of URLPatternInit is required
or carries a default). -/
def convMember (fields : List (String × JSVal)) (k : String) : Except String (Option String) :=
  match getProp fields k with
  | .undefined => .ok none
  | v => (convertUSVString v).map some

/-- Embedding of `converters.URLPatternInit` (webidl.js lines 24-117
and 171-181): a value of webidl type Undefined or Null converts to the
all-defaults (empty) dictionary, an Object converts member-wise in
sorted key order (baseURL, hash, hostname, password, pathname, port,
protocol, search, username), and any other value is rejected as not
convertible to a dictionary. -/
def convertURLPatternInit (v : JSVal) : Except String URLPatternInit :=
  match v with
  | .undefined => .ok {}
  | .null => .ok {}
  | .obj fields => do
    let b ← convMember fields "baseURL"
    let ha ← convMember fields "hash"
    let ho ← convMember fields "hostname"
    let pw ← convMember fields "password"
    let pa ← convMember fields "pathname"
    let po ← convMember fields "port"
    let pr ← convMember fields "protocol"
    let se ← convMember fields "search"
    let us ← convMember fields "username"
    .ok { protocol := pr, username := us, password := pw, hostname := ho,
          port := po, pathname := pa, search := se, hash := ha, baseURL := b }
  | _ => .error "can not be converted to a dictionary"

/-- A converted match/construction input: a pattern or URL string, or
a structured URLPatternInit. -/
inductive MatchInput where
  | str (s : String)
  | init (d : URLPatternInit)
deriving DecidableEq, Repr

/-- Embedding of `converters.URLPatternInput` (webidl.js lines
164-169): `typeof V == "object"` (null included) goes through the
dictionary converter, everything else through USVString. -/
def convertURLPatternInput (v : JSVal) : Except String MatchInput :=
  if jsTypeOf v = "object" then (convertURLPatternInit v).map .init
  else (convertUSVString v).map .str

/-- The error message built by `webidl.requiredArguments` (webidl.js
lines 13-22). -/
def requiredArgumentsMsg (pfx : String) (required given : Nat) : String :=
  (if pfx = "" then "" else pfx ++ ": ") ++ toString required ++ " argument" ++
    (if required = 1 then "" else "s") ++ " required, but only " ++ toString given ++ " present."

/-- Embedding of `webidl.requiredArguments` (webidl.js lines 13-22). -/
def requiredArgumentsCheck (given required : Nat) (pfx : String) : Except String Unit :=
  if given < required then .error (requiredArgumentsMsg pfx required given) else .ok ()

/-- The shared `baseURL !== undefined` conversion step of the
constructor, `test` and `exec`: an absent (undefined) base stays
absent, anything else is converted with USVString. -/
def convertBaseArg : JSVal → Except String (Option String)
  | .undefined => .ok none
  | v => (convertUSVString v).map some

/-! ## The URLPattern instance: components, constructor, methods -/

/-- Model of a host RegExp object (the "u"-flag regexes the wrapper
compiles): `exec` returns `none` when the regex does not match, and on
a match the list of capture values `match[1..]` (`none` for a capture
group that did not participate).  The wrapper never sets the global or
sticky flag, so `lastIndex` plays no role and `test`/`exec` are
pure. -/
structure RegExpM where
  exec : String → Option (List (Option String))

/-- ECMAScript `RegExp.prototype.test` for a non-global regex: true
exactly when `exec` finds a match. -/
def RegExpM.test (r : RegExpM) (s : String) : Bool := (r.exec s).isSome

/-- The eight URL components. -/
inductive ComponentKey where
  | protocol | username | password | hostname | port | pathname | search | hash
deriving DecidableEq, Repr

/-- The iteration order of `Object.keys` over the component record
returned by the wasm compiler and over the resolved-values record:
the eight URL components in declaration order. -/
def componentKeys : List ComponentKey :=
  [.protocol, .username, .password, .hostname, .port, .pathname, .search, .hash]

/-- The JS property name of a component key (as it appears in the
constructor's error message). -/
def ComponentKey.name : ComponentKey → String
  | .protocol => "protocol"
  | .username => "username"
  | .password => "password"
  | .hostname => "hostname"
  | .port => "port"
  | .pathname => "pathname"
  | .search => "search"
  | .hash => "hash"

/-- A compiled component as returned by the wasm `urlpattern_parse`:
pattern string for introspection, generated regex source, and the
ordered capture-group name list. -/
structure ParsedComponent where
  patternString : String
  regexpString : String
  groupNameList : List String
deriving DecidableEq, Repr

/-- A component after the constructor attached the host-compiled
regex (`components[key].regexp = new RegExp(components[key].regexpString,
"u")`, mod.ts lines 291-294). -/
structure Component where
  patternString : String
  regexpString : String
  groupNameList : List String
  regexp : RegExpM

/-- A constructed URLPattern instance: the immutable component set
stored in `this[_components]`. -/
structure URLPattern where
  components : ComponentKey → Component

/-- The first component key (in `Object.keys` order) whose generated
regex source the host engine rejects, with the engine's message. -/
def firstCompileError (compile : String → Except String RegExpM)
    (pc : ComponentKey → ParsedComponent) :
    List ComponentKey → Option (ComponentKey × String)
  | [] => none
  | k :: ks =>
    match compile (pc k).regexpString with
    | .error e => some (k, e)
    | .ok _ => firstCompileError compile pc ks

/-- The regex object for a source the host engine accepts (the value
written into `components[key].regexp`); for a rejected source the
constructor has already thrown, so the fallback branch is never the
value of a constructed instance. -/
def compiledOrDefault (compile : String → Except String RegExpM) (s : String) : RegExpM :=
  match compile s with
  | .ok r => r
  | .error _ => ⟨fun _ => none⟩

/-- Embedding of the constructor's compilation loop (mod.ts lines
289-300): every component's regex source is handed to the host regex
engine eagerly; the first failure aborts construction with a TypeError
naming the component and carrying the engine's message. -/
def compileComponents (compile : String → Except String RegExpM) (pfx : String)
    (pc : ComponentKey → ParsedComponent) : Except String URLPattern :=
  match firstCompileError compile pc componentKeys with
  | some (k, msg) => .error (pfx ++ ": " ++ k.name ++ " is invalid; " ++ msg)
  | none => .ok ⟨fun k =>
      { patternString := (pc k).patternString
        regexpString := (pc k).regexpString
        groupNameList := (pc k).groupNameList
        regexp := compiledOrDefault compile (pc k).regexpString }⟩

/-- Embedding of the URLPattern constructor (mod.ts lines 272-301),
parametric in the wasm pattern compiler `parse` and the host regex
capability `compile`, both of which live outside the source tree.
`argCount` is `arguments.length`; an absent second argument is the JS
value `undefined`. -/
def construct
    (parse : MatchInput → Option String → Except String (ComponentKey → ParsedComponent))
    (compile : String → Except String RegExpM)
    (argCount : Nat) (inputV : JSVal) (baseURLV : JSVal) : Except String URLPattern := do
  let pfx := "Failed to construct 'URLPattern'"
  let _ ← requiredArgumentsCheck argCount 1 pfx
  let input ← convertURLPatternInput inputV
  let base ← convertBaseArg baseURLV
  let pc ← parse input base
  compileComponents compile pfx pc

/-- A receiver value for the brand check: whether it is an object
passing `instanceof URLPattern` and whether it carries the brand
symbol, together with its component set (meaningful only when both
hold). -/
structure Receiver where
  isInstance : Bool
  hasBrand : Bool
  pat : URLPattern

/-- Embedding of `webidl.assertBranded` (webidl.js lines 7-11). -/
def assertBranded (r : Receiver) : Except String Unit :=
  if !r.isInstance || !r.hasBrand then .error "Illegal invocation" else .ok ()

/-- The component-resolution logic of the wasm module (URL parsing and
component defaulting), kept abstract: `none` is a resolution
failure. -/
abbrev Resolver : Type :=
  MatchInput → Option String → Option (ComponentKey → String)

/-- Modelled from the spec (§4.5): the wasm function
`urlpattern_process_match_input` returns, on success, the resolved
per-component values together with the recorded inputs — the processed
input and the supplied base URL or null.  The resolution logic itself
lives in the wasm module outside the source tree and is the abstract
`resolve` parameter. -/
def processMatchInput (resolve : Resolver) (input : MatchInput) (base : Option String) :
    Option ((ComponentKey → String) × (MatchInput × Option String)) :=
  (resolve input base).map fun v => (v, (input, base))

/-- The `for (const key of Object.keys(values))` loop of `test`
(mod.ts lines 398-403): short-circuits to false at the first component
whose regex rejects its resolved value. -/
def testLoop (p : URLPattern) (values : ComponentKey → String) : List ComponentKey → Bool
  | [] => true
  | k :: ks =>
    if (p.components k).regexp.test (values k) then testLoop p values ks else false

/-- `test` after argument conversion (mod.ts lines 388-405): resolve
the input, return false on resolution failure, else run every
component's compiled regex over its resolved value. -/
def testCore (p : URLPattern) (resolve : Resolver) (input : MatchInput)
    (base : Option String) : Bool :=
  match processMatchInput resolve input base with
  | none => false
  | some (values, _) => testLoop p values componentKeys

/-- One per-component entry of a match result: the resolved input
value and the name-to-substring group mapping (the entry list fed to
`Object.fromEntries`). -/
structure ComponentResult where
  input : String
  groups : List (String × String)
deriving DecidableEq, Repr

/-- One recorded entry of the result's `inputs` array. -/
inductive InputEntry where
  | input (i : MatchInput)
  | base (b : String)
deriving DecidableEq, Repr

/-- The object `exec` returns on success (mod.ts lines 455-479). -/
structure URLPatternResult where
  inputs : List InputEntry
  components : List (ComponentKey × ComponentResult)

/-- The group entries built positionally from the capture list:
`component.groupNameList.map((name, i) => [name, match[i + 1] ?? ""])`
(mod.ts lines 469-471); a capture that is absent or did not
participate contributes the empty string. -/
def buildGroups (names : List String) (captures : List (Option String)) :
    List (String × String) :=
  names.enum.map fun e => (e.2, ((captures.get? e.1).join).getD "")

/-- The per-component loop of `exec` (mod.ts lines 462-477): the whole
call returns null at the first component whose regex rejects its
resolved value; otherwise each component contributes its result entry
in key order. -/
def execLoop (p : URLPattern) (values : ComponentKey → String) :
    List ComponentKey → Option (List (ComponentKey × ComponentResult))
  | [] => some []
  | k :: ks =>
    match (p.components k).regexp.exec (values k) with
    | none => none
    | some captures =>
      match execLoop p values ks with
      | none => none
      | some others =>
        some ((k, ⟨values k, buildGroups (p.components k).groupNameList captures⟩) :: others)

/-- The recorded `inputs` array after `if (inputs[1] === null)
inputs.pop()` (mod.ts lines 456-458). -/
def recordInputs : MatchInput × Option String → List InputEntry
  | (i, none) => [.input i]
  | (i, some b) => [.input i, .base b]

/-- `exec` after argument conversion (mod.ts lines 447-479). -/
def execCore (p : URLPattern) (resolve : Resolver) (input : MatchInput)
    (base : Option String) : Option URLPatternResult :=
  match processMatchInput resolve input base with
  | none => none
  | some (values, inputs) =>
    match execLoop p values componentKeys with
    | none => none
    | some comps => some ⟨recordInputs inputs, comps⟩

/-- Embedding of `URLPattern.prototype.test` (mod.ts lines 370-405):
brand check, arity check, argument conversion, then the match core. -/
def testMethod (resolve : Resolver) (r : Receiver) (argCount : Nat)
    (inputV baseURLV : JSVal) : Except String Bool := do
  let _ ← assertBranded r
  let _ ← requiredArgumentsCheck argCount 1 "Failed to execute 'test' on 'URLPattern'"
  let input ← convertURLPatternInput inputV
  let base ← convertBaseArg baseURLV
  .ok (testCore r.pat resolve input base)

/-- Embedding of `URLPattern.prototype.exec` (mod.ts lines 429-480):
brand check, arity check, argument conversion, then the match core. -/
def execMethod (resolve : Resolver) (r : Receiver) (argCount : Nat)
    (inputV baseURLV : JSVal) : Except String (Option URLPatternResult) := do
  let _ ← assertBranded r
  let _ ← requiredArgumentsCheck argCount 1 "Failed to execute 'exec' on 'URLPattern'"
  let input ← convertURLPatternInput inputV
  let base ← convertBaseArg baseURLV
  .ok (execCore r.pat resolve input base)

/-- Embedding of the eight property getters (mod.ts lines 303-349),
parametrized by the component: brand check, then the component's
stored pattern string. -/
def componentGetter (r : Receiver) (k : ComponentKey) : Except String String := do
  let _ ← assertBranded r
  .ok (r.pat.components k).patternString

/-! ## State-passing view of the methods (for the no-mutation claim) -/

/-- State-passing form of `test`: the method body only reads
`this[_components]` and assigns no instance field (mod.ts lines
370-405), so the receiver state after the call is the state before
it. -/
def testStep (p : URLPattern) (resolve : Resolver) (input : MatchInput)
    (base : Option String) : Bool × URLPattern :=
  (testCore p resolve input base, p)

/-- State-passing form of `exec` (mod.ts lines 429-480): likewise
mutation-free. -/
def execStep (p : URLPattern) (resolve : Resolver) (input : MatchInput)
    (base : Option String) : Option URLPatternResult × URLPattern :=
  (execCore p resolve input base, p)

/-- One recorded `test` or `exec` call with its arguments. -/
inductive MethodCall where
  | testCall (resolve : Resolver) (input : MatchInput) (base : Option String)
  | execCall (resolve : Resolver) (input : MatchInput) (base : Option String)

/-- The instance state after one method call. -/
def stepCall (p : URLPattern) : MethodCall → URLPattern
  | .testCall resolve i b => (testStep p resolve i b).2
  | .execCall resolve i b => (execStep p resolve i b).2

/-- The instance state after a sequence of method calls. -/
def runCalls (p : URLPattern) (cs : List MethodCall) : URLPattern :=
  cs.foldl stepCall p

/-! ## Concrete instances used by the witnesses -/

/-- A host regex object matching any string, capturing it whole (the
behavior of the compiled wildcard source). -/
def wildcardMatcher : RegExpM := ⟨fun s => some [some s]⟩

/-- A concrete component set: every component the compiled wildcard. -/
def allWildcardPattern : URLPattern :=
  ⟨fun _ => { patternString := "*", regexpString := "^(.*)$",
              groupNameList := ["0"], regexp := wildcardMatcher }⟩

/-- A properly constructed receiver for `allWildcardPattern`. -/
def brandedReceiver : Receiver := ⟨true, true, allWildcardPattern⟩

/-! ## Theorems for the claims -/

theorem testLoop_eq_isSome_execLoop (p : URLPattern) (values : ComponentKey → String) :
    ∀ ks : List ComponentKey, testLoop p values ks = (execLoop p values ks).isSome
  | [] => rfl
  | k :: ks => by
    simp only [testLoop, execLoop, RegExpM.test]
    split
    · rename_i hcond
      obtain ⟨captures, hexec⟩ := Option.isSome_iff_exists.mp hcond
      rw [hexec, testLoop_eq_isSome_execLoop p values ks]
      rcases execLoop p values ks with _ | others <;> simp
    · rename_i hcond
      have hexec : (p.components k).regexp.exec (values k) = none := by
        rcases Option.eq_none_or_eq_some ((p.components k).regexp.exec (values k)) with
          h | ⟨c, h⟩
        · exact h
        · exact absurd (by simp [h]) hcond
      rw [hexec]
      rfl

theorem testCore_eq_isSome_execCore (p : URLPattern) (resolve : Resolver)
    (input : MatchInput) (base : Option String) :
    testCore p resolve input base = (execCore p resolve input base).isSome := by
  unfold testCore execCore processMatchInput
  cases resolve input base with
  | none => rfl
  | some values =>
    dsimp only [Option.map]
    rw [testLoop_eq_isSome_execLoop p values componentKeys]
    rcases execLoop p values componentKeys with _ | comps <;> simp

/-- C1: for every constructed URLPattern instance and every input
(string or structured object) with optional baseURL, `test` returns
true exactly when `exec` returns a non-null result: the two methods
run the identical brand/arity/conversion/resolution pipeline and then
the same component regexes, `test` via `RegExp.test` and `exec` via
`RegExp.exec`. -/
theorem test_true_iff_exec_some (resolve : Resolver) (r : Receiver) (argCount : Nat)
    (inputV baseURLV : JSVal) :
    testMethod resolve r argCount inputV baseURLV = .ok true ↔
      ∃ res, execMethod resolve r argCount inputV baseURLV = .ok (some res) := by
  simp only [testMethod, execMethod, Bind.bind, Except.bind]
  cases hb : assertBranded r with
  | error e => simp
  | ok u =>
    cases u
    cases hr1 : requiredArgumentsCheck argCount 1 "Failed to execute 'test' on 'URLPattern'" with
    | error e =>
      have hr2 : requiredArgumentsCheck argCount 1 "Failed to execute 'exec' on 'URLPattern'" =
          .error (requiredArgumentsMsg "Failed to execute 'exec' on 'URLPattern'" 1 argCount) := by
        unfold requiredArgumentsCheck at hr1 ⊢
        by_cases h : argCount < 1
        · simp [h]
        · simp [h] at hr1
      simp [hr2]
    | ok u =>
      cases u
      have hr2 : requiredArgumentsCheck argCount 1 "Failed to execute 'exec' on 'URLPattern'" =
          .ok () := by
        unfold requiredArgumentsCheck at hr1 ⊢
        by_cases h : argCount < 1
        · simp [h] at hr1
        · simp [h]
      rw [hr2]
      cases hi : convertURLPatternInput inputV with
      | error e => simp
      | ok input =>
        cases hbase : convertBaseArg baseURLV with
        | error e => simp
        | ok base =>
          simp only [Except.ok.injEq]
          rw [testCore_eq_isSome_execCore]
          cases execCore r.pat resolve input base <;> simp

/-- C2: when the match input fails to resolve (the input string does
not parse as a URL, absolute or relative to the supplied base), `test`
returns false and `exec` returns null; neither throws: given a branded
receiver, at least one argument, and arguments the converters accept,
a resolution failure produces the ordinary values `.ok false` and
`.ok none`. -/
theorem resolution_failure_false_null (resolve : Resolver) (r : Receiver) (argCount : Nat)
    (inputV baseURLV : JSVal) (input : MatchInput) (base : Option String)
    (hbrand : assertBranded r = .ok ())
    (hargs : 1 ≤ argCount)
    (hin : convertURLPatternInput inputV = .ok input)
    (hbase : convertBaseArg baseURLV = .ok base)
    (hres : resolve input base = none) :
    testMethod resolve r argCount inputV baseURLV = .ok false ∧
      execMethod resolve r argCount inputV baseURLV = .ok none := by
  have hr1 : ∀ pfx, requiredArgumentsCheck argCount 1 pfx = .ok () := by
    intro pfx
    unfold requiredArgumentsCheck
    rw [if_neg (by omega)]
  constructor <;>
    simp [testMethod, execMethod, Bind.bind, Except.bind, hbrand, hr1, hin, hbase,
      testCore, execCore, processMatchInput, hres]

theorem resolution_failure_false_null_witness :
    assertBranded brandedReceiver = .ok () ∧ 1 ≤ 2 ∧
    convertURLPatternInput (.str "not a url") = .ok (.str "not a url") ∧
    convertBaseArg (.str "also not a url") = .ok (some "also not a url") ∧
    (fun _ _ => none : Resolver) (.str "not a url") (some "also not a url") = none ∧
    (testMethod (fun _ _ => none) brandedReceiver 2 (.str "not a url")
        (.str "also not a url") = .ok false ∧
      execMethod (fun _ _ => none) brandedReceiver 2 (.str "not a url")
        (.str "also not a url") = .ok none) :=
  ⟨rfl, by decide, rfl, rfl, rfl,
    resolution_failure_false_null (fun _ _ => none) brandedReceiver 2
      (.str "not a url") (.str "also not a url") (.str "not a url")
      (some "also not a url") rfl (by decide) rfl rfl rfl⟩

/-- C8: `test` and `exec` mutate no instance state: after any sequence
of test/exec calls with any inputs, the eight property getters return
the same strings as immediately after construction, and test/exec
calls on the same inputs keep returning the same results. -/
theorem no_mutation_across_calls (p : URLPattern) (cs : List MethodCall) :
    (∀ k : ComponentKey, componentGetter ⟨true, true, runCalls p cs⟩ k =
        componentGetter ⟨true, true, p⟩ k) ∧
    (∀ (resolve : Resolver) (input : MatchInput) (base : Option String),
      testCore (runCalls p cs) resolve input base = testCore p resolve input base ∧
      execCore (runCalls p cs) resolve input base = execCore p resolve input base) := by
  have h : runCalls p cs = p := by
    induction cs with
    | nil => rfl
    | cons c cs ih =>
      have hc : stepCall p c = p := by cases c <;> rfl
      simpa [runCalls, List.foldl, hc] using ih
  rw [h]
  exact ⟨fun _ => rfl, fun _ _ _ => ⟨rfl, rfl⟩⟩

/-- C10: on every receiver that is not a branded URLPattern instance
(it fails `instanceof` or lacks the brand symbol), `test`, `exec` and
each of the eight property getters throw a TypeError with message
"Illegal invocation" before doing any other work: the result is that
error whatever the other arguments and the abstract resolver are. -/
theorem illegal_invocation_unbranded (r : Receiver)
    (h : r.isInstance = false ∨ r.hasBrand = false) :
    (∀ (resolve : Resolver) (argCount : Nat) (inputV baseURLV : JSVal),
      testMethod resolve r argCount inputV baseURLV = .error "Illegal invocation" ∧
      execMethod resolve r argCount inputV baseURLV = .error "Illegal invocation") ∧
    (∀ k : ComponentKey, componentGetter r k = .error "Illegal invocation") := by
  have hb : assertBranded r = .error "Illegal invocation" := by
    unfold assertBranded
    rcases h with h | h <;> simp [h]
  refine ⟨fun resolve argCount iV bV => ⟨?_, ?_⟩, fun k => ?_⟩ <;>
    simp [testMethod, execMethod, componentGetter, hb, Bind.bind, Except.bind]

theorem illegal_invocation_unbranded_witness :
    ((Receiver.mk false true allWildcardPattern).isInstance = false ∨
      (Receiver.mk false true allWildcardPattern).hasBrand = false) ∧
    componentGetter (Receiver.mk false true allWildcardPattern) .protocol =
      .error "Illegal invocation" :=
  ⟨Or.inl rfl,
    (illegal_invocation_unbranded (Receiver.mk false true allWildcardPattern)
      (Or.inl rfl)).2 .protocol⟩

/-- C9: the USVString converter is UTF-16 well-formedness
normalization: on any code-unit sequence (each unit below 0x10000, as
`charCodeAt` guarantees) the converter's loop computes exactly the
surrogate fixup — every unpaired surrogate unit becomes U+FFFD and
every well-formed pair is re-emitted unchanged through its
supplementary code point — so its output is always well formed and it
is the identity on already well-formed inputs. -/
theorem usvstring_normalizes (s : List Nat) (h : ∀ c ∈ s, c < 0x10000) :
    usvConvert s = surrogateFixup s ∧
    wellFormed (usvConvert s) = true ∧
    (wellFormed s = true → usvConvert s = s) := by
  have he := usvConvert_eq_surrogateFixup s h
  exact ⟨he, by rw [he]; exact wellFormed_surrogateFixup s,
    fun hwf => by rw [he]; exact surrogateFixup_of_wellFormed s hwf⟩

theorem usvstring_normalizes_witness :
    (∀ c ∈ ([0x68, 0xd83d, 0xde00, 0xdc00, 0x69] : List Nat), c < 0x10000) ∧
    (usvConvert [0x68, 0xd83d, 0xde00, 0xdc00, 0x69] =
        surrogateFixup [0x68, 0xd83d, 0xde00, 0xdc00, 0x69] ∧
      wellFormed (usvConvert [0x68, 0xd83d, 0xde00, 0xdc00, 0x69]) = true ∧
      (wellFormed [0x68, 0xd83d, 0xde00, 0xdc00, 0x69] = true →
        usvConvert [0x68, 0xd83d, 0xde00, 0xdc00, 0x69] =
          [0x68, 0xd83d, 0xde00, 0xdc00, 0x69])) :=
  ⟨by decide, usvstring_normalizes [0x68, 0xd83d, 0xde00, 0xdc00, 0x69] (by decide)⟩

theorem testLoop_eq_all (p : URLPattern) (values : ComponentKey → String) :
    ∀ ks : List ComponentKey,
      testLoop p values ks = ks.all fun k => (p.components k).regexp.test (values k)
  | [] => rfl
  | k :: ks => by
    simp only [testLoop, List.all_cons]
    by_cases h : (p.components k).regexp.test (values k) = true <;>
      simp [h, testLoop_eq_all p values ks]

theorem testLoop_short_circuit (p q : URLPattern) (values : ComponentKey → String) :
    ∀ (ks1 : List ComponentKey) (k : ComponentKey) (ks2 : List ComponentKey),
      (∀ j ∈ ks1, q.components j = p.components j) →
      q.components k = p.components k →
      (∀ j ∈ ks1, (p.components j).regexp.test (values j) = true) →
      (p.components k).regexp.test (values k) = false →
      testLoop q values (ks1 ++ k :: ks2) = false
  | [], k, ks2, _, hk, _, hfail => by
    simp [testLoop, hk, hfail]
  | j :: ks1, k, ks2, hagree, hk, hok, hfail => by
    have hj : (q.components j).regexp.test (values j) = true := by
      rw [hagree j (List.mem_cons_self ..)]
      exact hok j (List.mem_cons_self ..)
    simp only [List.cons_append, testLoop, hj, if_true]
    exact testLoop_short_circuit p q values ks1 k ks2
      (fun x hx => hagree x (List.mem_cons_of_mem _ hx)) hk
      (fun x hx => hok x (List.mem_cons_of_mem _ hx)) hfail

/-- C7: for every constructed instance and every resolvable input,
`test` returns true exactly when the compiled regexes of all 8
components accept their resolved values; and a first failing component
settles the call: every instance agreeing with `p` on the components
up to and including the first failure returns false regardless of its
later components (no later component is consulted). -/
theorem test_all_components_short_circuit (p : URLPattern) (resolve : Resolver)
    (input : MatchInput) (base : Option String) (values : ComponentKey → String)
    (hres : resolve input base = some values) :
    (testCore p resolve input base = true ↔
      ∀ k ∈ componentKeys, (p.components k).regexp.test (values k) = true) ∧
    (∀ (q : URLPattern) (ks1 : List ComponentKey) (k : ComponentKey)
        (ks2 : List ComponentKey),
      componentKeys = ks1 ++ k :: ks2 →
      (∀ j ∈ ks1, q.components j = p.components j) →
      q.components k = p.components k →
      (∀ j ∈ ks1, (p.components j).regexp.test (values j) = true) →
      (p.components k).regexp.test (values k) = false →
      testCore q resolve input base = false) := by
  have hpm : processMatchInput resolve input base = some (values, (input, base)) := by
    simp [processMatchInput, hres]
  constructor
  · unfold testCore
    rw [hpm]
    dsimp only
    rw [testLoop_eq_all p values componentKeys]
    simp
  · intro q ks1 k ks2 hsplit hagree hk hok hfail
    unfold testCore
    rw [hpm]
    dsimp only
    rw [hsplit]
    exact testLoop_short_circuit p q values ks1 k ks2 hagree hk hok hfail

theorem test_all_components_short_circuit_witness :
    (fun _ _ => some fun _ => "v" : Resolver) (.str "u") none = some (fun _ => "v") ∧
    ((testCore allWildcardPattern (fun _ _ => some fun _ => "v") (.str "u") none = true ↔
      ∀ k ∈ componentKeys,
        (allWildcardPattern.components k).regexp.test ((fun _ => "v") k) = true) ∧
    (∀ (q : URLPattern) (ks1 : List ComponentKey) (k : ComponentKey)
        (ks2 : List ComponentKey),
      componentKeys = ks1 ++ k :: ks2 →
      (∀ j ∈ ks1, q.components j = allWildcardPattern.components j) →
      q.components k = allWildcardPattern.components k →
      (∀ j ∈ ks1, (allWildcardPattern.components j).regexp.test ((fun _ => "v") j) = true) →
      (allWildcardPattern.components k).regexp.test ((fun _ => "v") k) = false →
      testCore q (fun _ _ => some fun _ => "v") (.str "u") none = false)) :=
  ⟨rfl, test_all_components_short_circuit allWildcardPattern
    (fun _ _ => some fun _ => "v") (.str "u") none (fun _ => "v") rfl⟩

/-- C5: a successful `exec` records the inputs tuple as the
one-element array [originalInput] when no baseURL argument was
supplied and as [originalInput, baseURL] when one was: the wasm
function echoes the processed input and base, and the wrapper pops the
null base slot. -/
theorem exec_records_inputs (p : URLPattern) (resolve : Resolver) (input : MatchInput)
    (base : Option String) (res : URLPatternResult)
    (h : execCore p resolve input base = some res) :
    res.inputs = match base with
      | none => [InputEntry.input input]
      | some b => [InputEntry.input input, InputEntry.base b] := by
  unfold execCore processMatchInput at h
  rcases hres : resolve input base with _ | values
  · rw [hres] at h
    simp at h
  · rw [hres] at h
    dsimp only [Option.map] at h
    rcases hloop : execLoop p values componentKeys with _ | comps
    · rw [hloop] at h
      simp at h
    · rw [hloop] at h
      dsimp only at h
      injection h with h
      subst h
      cases base <;> rfl

/-- The concrete result returned by `exec` in the witnesses: every
component of the all-wildcard pattern matches "v" with its single
group "0" capturing the whole value. -/
def execWitnessResult : URLPatternResult :=
  ⟨[.input (.str "u"), .base "b"],
    componentKeys.map fun k => (k, ⟨"v", [("0", "v")]⟩)⟩

theorem exec_records_inputs_witness :
    execCore allWildcardPattern (fun _ _ => some fun _ => "v") (.str "u") (some "b") =
      some execWitnessResult ∧
    execWitnessResult.inputs = [InputEntry.input (.str "u"), InputEntry.base "b"] := by
  have h : execCore allWildcardPattern (fun _ _ => some fun _ => "v") (.str "u")
      (some "b") = some execWitnessResult := rfl
  exact ⟨h, exec_records_inputs allWildcardPattern (fun _ _ => some fun _ => "v")
    (.str "u") (some "b") execWitnessResult h⟩

theorem buildGroups_get (names : List String) (captures : List (Option String))
    (i : Nat) (hi : i < names.length) :
    (buildGroups names captures)[i]? =
      some (names[i], ((captures.get? i).join).getD "") := by
  unfold buildGroups
  rw [List.getElem?_map, List.getElem?_enum, List.getElem?_eq_getElem hi]
  rfl

theorem execLoop_lookup (p : URLPattern) (values : ComponentKey → String) :
    ∀ (ks : List ComponentKey) (comps : List (ComponentKey × ComponentResult)),
      execLoop p values ks = some comps →
      ∀ k ∈ ks, ∃ captures,
        (p.components k).regexp.exec (values k) = some captures ∧
        comps.lookup k =
          some ⟨values k, buildGroups (p.components k).groupNameList captures⟩
  | [], _, _, k, hk => absurd hk (List.not_mem_nil k)
  | j :: ks, comps, h, k, hk => by
    simp only [execLoop] at h
    rcases hexec : (p.components j).regexp.exec (values j) with _ | captures
    · rw [hexec] at h
      simp at h
    · rw [hexec] at h
      rcases hloop : execLoop p values ks with _ | others
      · rw [hloop] at h
        simp at h
      · rw [hloop] at h
        dsimp only at h
        injection h with h
        subst h
        rcases List.mem_cons.mp hk with rfl | hmem
        · exact ⟨captures, hexec, by simp [List.lookup]⟩
        · by_cases hkj : k = j
          · subst hkj
            exact ⟨captures, hexec, by simp [List.lookup]⟩
          · obtain ⟨caps2, hex2, hlk⟩ := execLoop_lookup p values ks others hloop k hmem
            have hbeq : (k == j) = false := by
              simp [hkj]
            refine ⟨caps2, hex2, ?_⟩
            simp only [List.lookup, hbeq]
            exact hlk

/-- C6: for every successful `exec` call and every component, the
component result is the resolved component value together with the
groups mapping built positionally from the regex match — entry i binds
the i-th name of the component's groupNameList to capture i+1 of the
match, the empty string when that capture is absent or did not
participate. -/
theorem exec_component_results (p : URLPattern) (resolve : Resolver) (input : MatchInput)
    (base : Option String) (values : ComponentKey → String) (res : URLPatternResult)
    (hres : resolve input base = some values)
    (h : execCore p resolve input base = some res) :
    ∀ k ∈ componentKeys, ∃ captures,
      (p.components k).regexp.exec (values k) = some captures ∧
      res.components.lookup k =
        some ⟨values k, buildGroups (p.components k).groupNameList captures⟩ ∧
      ∀ i (hi : i < (p.components k).groupNameList.length),
        (buildGroups (p.components k).groupNameList captures)[i]? =
          some ((p.components k).groupNameList[i],
            ((captures.get? i).join).getD "") := by
  unfold execCore processMatchInput at h
  rw [hres] at h
  dsimp only [Option.map] at h
  rcases hloop : execLoop p values componentKeys with _ | comps
  · rw [hloop] at h
    simp at h
  · rw [hloop] at h
    dsimp only at h
    injection h with h
    subst h
    intro k hk
    obtain ⟨captures, hexec, hlk⟩ := execLoop_lookup p values componentKeys comps hloop k hk
    exact ⟨captures, hexec, hlk, fun i hi =>
      buildGroups_get (p.components k).groupNameList captures i hi⟩

theorem exec_component_results_witness :
    (fun _ _ => some fun _ => "v" : Resolver) (.str "u") (some "b") =
      some (fun _ => "v") ∧
    execCore allWildcardPattern (fun _ _ => some fun _ => "v") (.str "u") (some "b") =
      some execWitnessResult ∧
    ∀ k ∈ componentKeys, ∃ captures,
      (allWildcardPattern.components k).regexp.exec ((fun _ => "v") k) = some captures ∧
      execWitnessResult.components.lookup k =
        some ⟨(fun _ => "v") k,
          buildGroups (allWildcardPattern.components k).groupNameList captures⟩ ∧
      ∀ i (hi : i < (allWildcardPattern.components k).groupNameList.length),
        (buildGroups (allWildcardPattern.components k).groupNameList captures)[i]? =
          some ((allWildcardPattern.components k).groupNameList[i],
            ((captures.get? i).join).getD "") := by
  have h : execCore allWildcardPattern (fun _ _ => some fun _ => "v") (.str "u")
      (some "b") = some execWitnessResult := rfl
  exact ⟨rfl, h, exec_component_results allWildcardPattern (fun _ _ => some fun _ => "v")
    (.str "u") (some "b") (fun _ => "v") execWitnessResult rfl h⟩

/-! ## Spec-modelled wasm compiler outputs for the construction claims -/

/-- Modelled from the spec (§4.2-§4.4): the component the wasm
compiler produces for the wildcard pattern `*` that every component of
a structured input with no explicit value and no baseURL defaults to —
a single full-wildcard group, numbered 0, compiled to an anchored
catch-all capture. -/
def wildcardParsedComponent : ParsedComponent :=
  { patternString := "*", regexpString := "^(.*)$", groupNameList := ["0"] }

/-- Modelled from the spec (§4.4): `urlpattern_parse` on a structured
object with no fields set and no baseURL — every component defaults to
the wildcard pattern and parsing succeeds.  The constructor-string
algorithm and the per-field pattern compiler live in the wasm module
outside the source tree; no claim settled against this concrete model
needs them, so those inputs map to a parse error here. -/
def specParse : MatchInput → Option String → Except String (ComponentKey → ParsedComponent)
  | .init d, none =>
    if d = {} then .ok fun _ => wildcardParsedComponent
    else .error "pattern compilation not modelled"
  | _, _ => .error "pattern compilation not modelled"

/-- Modelled from the spec (§6(b), §7): the host regex capability —
compiling the generated catch-all source succeeds (a RegexCompileError
"should be rare/impossible given a correct compiler"), the compiled
object matching any string with the whole value as its single capture.
Only its success is relied on by the construction claims. -/
def specCompile : String → Except String RegExpM :=
  fun _ => .ok wildcardMatcher

/-- ECMAScript type classification: string values. -/
def isStringValue : JSVal → Bool
  | .str _ => true
  | _ => false

/-- ECMAScript type classification: object values.  Null is of type
Null, not Object, in the ECMAScript type system; `typeof` reporting
"object" for null is the well-known quirk. -/
def isObjectValue : JSVal → Bool
  | .obj _ => true
  | _ => false

/-- Whether construction returned normally (no TypeError thrown). -/
def constructionSucceeds : Except String URLPattern → Bool
  | .ok _ => true
  | .error _ => false

/-- Counterexample to C3: null is neither a string value nor an object
value, yet `new URLPattern(null)` succeeds — `typeof null ==
"object"` routes it to the dictionary converter, which produces the
empty URLPatternInit, which parses to the all-wildcard pattern, whose
regexes compile. -/
theorem construct_null_succeeds :
    isStringValue JSVal.null = false ∧ isObjectValue JSVal.null = false ∧
    constructionSucceeds (construct specParse specCompile 1 JSVal.null JSVal.undefined) = true :=
  ⟨rfl, rfl, rfl⟩

/-- C3 amended: construction fails with a TypeError whenever fewer
than one argument is given, and, among non-string non-object inputs,
when the input is a symbol — the only value the input type check
itself rejects.  The remaining non-string non-object values are not
rejected by the type check: null converts to the empty dictionary (so
construction can succeed, see `construct_null_succeeds`), while
undefined, booleans and numbers are coerced to pattern strings. -/
theorem construct_arity_and_symbol
    (parse : MatchInput → Option String → Except String (ComponentKey → ParsedComponent))
    (compile : String → Except String RegExpM) :
    (∀ inputV baseURLV, construct parse compile 0 inputV baseURLV =
      .error (requiredArgumentsMsg "Failed to construct 'URLPattern'" 1 0)) ∧
    (∀ (argCount : Nat) (d : String) (baseURLV : JSVal), 1 ≤ argCount →
      construct parse compile argCount (.symbol d) baseURLV =
        .error "is a symbol, which cannot be converted to a string") ∧
    convertURLPatternInput .null = .ok (.init {}) ∧
    (∀ b : Bool, convertURLPatternInput (.boolean b) =
      .ok (.str (jsToString (.boolean b)))) ∧
    (∀ n : Int, convertURLPatternInput (.number n) =
      .ok (.str (jsToString (.number n)))) ∧
    convertURLPatternInput .undefined = .ok (.str "undefined") := by
  refine ⟨fun iV bV => ?_, fun n d bV hn => ?_, rfl, fun b => rfl, fun n => rfl, rfl⟩
  · simp [construct, requiredArgumentsCheck, Bind.bind, Except.bind]
  · have h1 : requiredArgumentsCheck n 1 "Failed to construct 'URLPattern'" = .ok () := by
      unfold requiredArgumentsCheck
      rw [if_neg (by omega)]
    simp [construct, h1, Bind.bind, Except.bind, convertURLPatternInput, jsTypeOf,
      convertUSVString, convertDOMString]
    rfl

theorem construct_arity_and_symbol_witness :
    (1 : Nat) ≤ 1 ∧
    construct specParse specCompile 0 JSVal.null JSVal.undefined =
      .error (requiredArgumentsMsg "Failed to construct 'URLPattern'" 1 0) ∧
    construct specParse specCompile 1 (JSVal.symbol "sym") JSVal.undefined =
      .error "is a symbol, which cannot be converted to a string" :=
  ⟨by decide,
    (construct_arity_and_symbol specParse specCompile).1 JSVal.null JSVal.undefined,
    (construct_arity_and_symbol specParse specCompile).2.1 1 "sym" JSVal.undefined (by decide)⟩

theorem mem_componentKeys (k : ComponentKey) : k ∈ componentKeys := by
  cases k <;> simp [componentKeys]

theorem firstCompileError_none (compile : String → Except String RegExpM)
    (pc : ComponentKey → ParsedComponent) :
    ∀ ks : List ComponentKey, firstCompileError compile pc ks = none →
      ∀ k ∈ ks, compile (pc k).regexpString =
        .ok (compiledOrDefault compile (pc k).regexpString)
  | [], _, k, hk => absurd hk (List.not_mem_nil k)
  | j :: ks, h, k, hk => by
    simp only [firstCompileError] at h
    rcases hc : compile (pc j).regexpString with e | r
    · rw [hc] at h
      simp at h
    · rw [hc] at h
      dsimp only at h
      rcases List.mem_cons.mp hk with rfl | hmem
      · simp [compiledOrDefault, hc]
      · exact firstCompileError_none compile pc ks h k hmem

theorem firstCompileError_first_failure (compile : String → Except String RegExpM)
    (pc : ComponentKey → ParsedComponent) :
    ∀ (ks1 : List ComponentKey) (k : ComponentKey) (ks2 : List ComponentKey) (msg : String),
      (∀ j ∈ ks1, ∃ r, compile (pc j).regexpString = .ok r) →
      compile (pc k).regexpString = .error msg →
      firstCompileError compile pc (ks1 ++ k :: ks2) = some (k, msg)
  | [], k, ks2, msg, _, hfail => by
    simp only [List.nil_append, firstCompileError]
    rw [hfail]
  | j :: ks1, k, ks2, msg, hok, hfail => by
    obtain ⟨r, hr⟩ := hok j (List.mem_cons_self ..)
    simp only [List.cons_append, firstCompileError]
    rw [hr]
    exact firstCompileError_first_failure compile pc ks1 k ks2 msg
      (fun x hx => hok x (List.mem_cons_of_mem _ hx)) hfail

/-- C4: the regexes of all 8 components are compiled eagerly at
construction — whenever the constructor returns an instance, every
component's stored regexp is the host engine's output for that
component's generated source — and when the engine rejects a
component's source (the components before it in key order compiling),
construction throws a TypeError whose message is built from, and hence
contains, that component's name and the engine's error message. -/
theorem construct_compiles_eagerly
    (parse : MatchInput → Option String → Except String (ComponentKey → ParsedComponent))
    (compile : String → Except String RegExpM) (argCount : Nat) (inputV baseURLV : JSVal)
    (input : MatchInput) (base : Option String) (pc : ComponentKey → ParsedComponent)
    (hargs : 1 ≤ argCount)
    (hin : convertURLPatternInput inputV = .ok input)
    (hbase : convertBaseArg baseURLV = .ok base)
    (hparse : parse input base = .ok pc) :
    (∀ p : URLPattern, construct parse compile argCount inputV baseURLV = .ok p →
      ∀ k : ComponentKey, compile (pc k).regexpString = .ok (p.components k).regexp) ∧
    (∀ (ks1 : List ComponentKey) (k : ComponentKey) (ks2 : List ComponentKey)
        (msg : String),
      componentKeys = ks1 ++ k :: ks2 →
      (∀ j ∈ ks1, ∃ r, compile (pc j).regexpString = .ok r) →
      compile (pc k).regexpString = .error msg →
      construct parse compile argCount inputV baseURLV =
          .error ("Failed to construct 'URLPattern'" ++ ": " ++ k.name ++
            " is invalid; " ++ msg) ∧
        (∃ before after, "Failed to construct 'URLPattern'" ++ ": " ++ k.name ++
            " is invalid; " ++ msg = before ++ k.name ++ after) ∧
        (∃ before2, "Failed to construct 'URLPattern'" ++ ": " ++ k.name ++
            " is invalid; " ++ msg = before2 ++ msg)) := by
  have hreq : requiredArgumentsCheck argCount 1 "Failed to construct 'URLPattern'" =
      .ok () := by
    unfold requiredArgumentsCheck
    rw [if_neg (by omega)]
  have hcon : construct parse compile argCount inputV baseURLV =
      compileComponents compile "Failed to construct 'URLPattern'" pc := by
    simp [construct, Bind.bind, Except.bind, hreq, hin, hbase, hparse]
  constructor
  · intro p hp k
    rw [hcon] at hp
    unfold compileComponents at hp
    rcases hfce : firstCompileError compile pc componentKeys with _ | pair
    · rw [hfce] at hp
      dsimp only at hp
      injection hp with hp
      subst hp
      simpa using firstCompileError_none compile pc componentKeys hfce k (mem_componentKeys k)
    · rw [hfce] at hp
      simp at hp
  · intro ks1 k ks2 msg hsplit hok hfail
    have hfce : firstCompileError compile pc componentKeys = some (k, msg) := by
      rw [hsplit]
      exact firstCompileError_first_failure compile pc ks1 k ks2 msg hok hfail
    refine ⟨?_, ?_, ?_⟩
    · rw [hcon]
      unfold compileComponents
      rw [hfce]
    · exact ⟨"Failed to construct 'URLPattern'" ++ ": ", " is invalid; " ++ msg,
        by simp [String.append_assoc]⟩
    · exact ⟨"Failed to construct 'URLPattern'" ++ ": " ++ k.name ++ " is invalid; ",
        by simp [String.append_assoc]⟩

theorem construct_compiles_eagerly_witness :
    (1 : Nat) ≤ 1 ∧
    convertURLPatternInput JSVal.null = .ok (.init {}) ∧
    convertBaseArg JSVal.undefined = .ok none ∧
    specParse (.init {}) none = .ok (fun _ => wildcardParsedComponent) ∧
    ((∀ p : URLPattern, construct specParse specCompile 1 JSVal.null JSVal.undefined = .ok p →
      ∀ k : ComponentKey,
        specCompile ((fun _ => wildcardParsedComponent) k).regexpString =
          .ok (p.components k).regexp) ∧
    (∀ (ks1 : List ComponentKey) (k : ComponentKey) (ks2 : List ComponentKey)
        (msg : String),
      componentKeys = ks1 ++ k :: ks2 →
      (∀ j ∈ ks1, ∃ r,
        specCompile ((fun _ => wildcardParsedComponent) j).regexpString = .ok r) →
      specCompile ((fun _ => wildcardParsedComponent) k).regexpString = .error msg →
      construct specParse specCompile 1 JSVal.null JSVal.undefined =
          .error ("Failed to construct 'URLPattern'" ++ ": " ++ k.name ++
            " is invalid; " ++ msg) ∧
        (∃ before after, "Failed to construct 'URLPattern'" ++ ": " ++ k.name ++
            " is invalid; " ++ msg = before ++ k.name ++ after) ∧
        (∃ before2, "Failed to construct 'URLPattern'" ++ ": " ++ k.name ++
            " is invalid; " ++ msg = before2 ++ msg))) :=
  ⟨by decide, rfl, rfl, rfl,
    construct_compiles_eagerly specParse specCompile 1 JSVal.null JSVal.undefined
      (.init {}) none (fun _ => wildcardParsedComponent) (by decide) rfl rfl rfl⟩

end UrlPattern
